import Mathlib

/-!
Verification of the MQTT `paho` demo notebook
(`boards/Pynq-Z1/mqttsn/notebooks/02_mqtt_paho.ipynb`).

The notebook is a linear script: it starts a broker, creates a `paho` MQTT
client, attaches callbacks, connects and subscribes (busy-waiting a fixed
number of event-loop pumps for each acknowledgment), polls three push
buttons publishing a message per change until a fourth button is pressed,
publishes final "offline" messages, and runs a 100-iteration publish
timing benchmark.

The embedding below models the script's own logic.  External inputs
(button reads, timer samples, acknowledgment arrival) are passed in as
function parameters; publish calls are collected into message traces.
-/

/-- An MQTT publish event: topic and payload, as produced by
`client.publish(topic, payload)`. -/
structure Msg where
  topic : String
  payload : String
deriving DecidableEq

/-- A message as delivered to the `on_message` callback: topic, payload
and QoS (cf. `message.topic`, `message.payload`, `message.qos`). -/
structure PahoMessage where
  topic : String
  payload : String
  qos : Nat
deriving DecidableEq

/- ## Cell 3 and cell 5: callback registration

```python
client = mqtt.Client()
def on_subscribe(client, userdata, mid, granted_qos): ...
def on_connect(client, userdata, flags, rc): ...
def on_publish(client, userdata, mid): ...
client.on_subscribe = on_subscribe
client.on_connect = on_connect
...
def on_message(client, userdata, message): ...
client.on_message = on_message
```

The handler bodies only print (and, for `on_message`, toggle the LEDs,
modelled separately below); we model the handlers as abstract labels and
the client's callback slots as `Option Handler` fields. -/

/-- Labels for the four handler functions defined in the notebook. -/
inductive Handler
  | on_subscribe
  | on_connect
  | on_publish
  | on_message
deriving DecidableEq

/-- The `paho` client's user-callback slots used by the notebook. -/
structure PahoClient where
  on_connect : Option Handler
  on_subscribe : Option Handler
  on_message : Option Handler
  on_publish : Option Handler
deriving DecidableEq

/-- A fresh client, `client = mqtt.Client()`, has no user callbacks. -/
def mqttClientInit : PahoClient :=
  { on_connect := none, on_subscribe := none, on_message := none, on_publish := none }

/-- The client after cell 3: `client.on_subscribe = on_subscribe` and
`client.on_connect = on_connect` (the defined `on_publish` is never
assigned). -/
def clientAfterCell3 : PahoClient :=
  { mqttClientInit with
      on_subscribe := some Handler.on_subscribe
      on_connect := some Handler.on_connect }

/-- The client after cell 5: additionally `client.on_message = on_message`. -/
def clientAfterCell5 : PahoClient :=
  { clientAfterCell3 with on_message := some Handler.on_message }

/- ## Cells 4 and 6: acknowledgment busy-waits

```python
client.connect("localhost", 1883)
for _ in range(10):
    client.loop(timeout=.1)
...
client.subscribe("button/#")
for _ in range(10):
    client.loop(timeout=.1)
```

Each busy-wait issues exactly ten `client.loop` calls with timeout 0.1
seconds; the loop body never inspects whether the acknowledgment has
arrived, so we record the sequence of per-call timeouts as a function of
an (ignored, exactly as in the source) acknowledgment-arrival history. -/

/-- The `timeout=.1` argument of each `client.loop` call. -/
def loopTimeout : ℚ := 1 / 10

/-- The timeouts of the `client.loop` calls issued by
`for _ in range(10): client.loop(timeout=.1)`; `arrived k` tells whether
the acknowledgment has arrived by iteration `k`, which the loop body
never consults. -/
def ackWaitCalls (arrived : Nat → Bool) : List ℚ :=
  (List.range 10).map (fun _ => loopTimeout)

/-- The busy-wait after `client.connect("localhost", 1883)` (cell 4). -/
def connectAckWait (arrived : Nat → Bool) : List ℚ :=
  ackWaitCalls arrived

/-- The busy-wait after `client.subscribe("button/#")` (cell 6). -/
def subscribeAckWait (arrived : Nat → Bool) : List ℚ :=
  ackWaitCalls arrived

/- ## Cell 5: the `on_message` LED effect

```python
def on_message(client, userdata, message):
    print("Received message ...")
    for led in leds:
        led.toggle()
```

LED states are booleans; the callback toggles every LED once. -/

/-- Effect of `led.toggle()` on a single LED state. -/
def toggle (led : Bool) : Bool := !led

/-- The loop `for led in leds: led.toggle()`: toggle each LED in order. -/
def toggleLoop : List Bool → List Bool
  | [] => []
  | led :: rest => toggle led :: toggleLoop rest

/-- The effect of the `on_message` callback on the LED states, given the
delivered message (whose topic, payload and QoS it only prints). -/
def onMessageLeds (message : PahoMessage) (leds : List Bool) : List Bool :=
  toggleLoop leds

/- ## Cell 7: the button-polling publish loop

```python
last = [btns[index].read() for index in range(3)]
while (btns[3].read()==0):
    current = [btns[index].read() for index in range(3)]
    changed = [current[index] != last[index] for index in range(3)]
    _ = [client.publish('button/' + str(index), str(current[index]))
            if(changed[index]) else None for index in range(3)]
    last = current
    client.loop(timeout=.001)
print(current)
_ = [client.publish('button/'+str(index), "offline") for index in range(3)]
```

Button reads are external inputs: `read index` is the value
`btns[index].read()` returns for `index < 3` during one iteration, and
`ex k` is the value `btns[3].read()` returns at the `k`-th loop test. -/

/-- The sample `current = [btns[index].read() for index in range(3)]`. -/
def currentOf (read : Nat → Nat) : List Nat :=
  (List.range 3).map read

/-- The comparison `changed = [current[index] != last[index] for index in range(3)]`. -/
def changedOf (current last : List Nat) : List Bool :=
  (List.range 3).map (fun index => current.getD index 0 != last.getD index 0)

/-- The publish calls of one loop iteration:
`[client.publish('button/' + str(index), str(current[index])) if(changed[index]) else None for index in range(3)]`. -/
def iterationPublishes (current last : List Nat) : List Msg :=
  (List.range 3).filterMap (fun index =>
    if (changedOf current last).getD index false then
      some { topic := "button/" ++ toString index,
             payload := toString (current.getD index 0) }
    else none)

/-- One iteration of the `while` body: publish the changes and update
`last` to the freshly sampled `current`. -/
def pollIter (read : Nat → Nat) (last : List Nat) : List Msg × List Nat :=
  (iterationPublishes (currentOf read) last, currentOf read)

/-- The final `[client.publish('button/'+str(index), "offline") for index in range(3)]`. -/
def offlinePublishes : List Msg :=
  (List.range 3).map (fun index =>
    { topic := "button/" ++ toString index, payload := "offline" })

/-- How a bounded run of the polling loop and its post-loop code ends:
still looping when the fuel ran out (`running`); exited with the loop
body never executed, in which case `print(current)` raises `NameError`
over the unbound name `current` before any offline publish happens
(`nameError`); or exited normally after at least one iteration, with the
final value of `last` (`exited`). -/
inductive PollResult
  | running
  | nameError
  | exited (last : List Nat)
deriving DecidableEq

/-- The polling `while` loop together with the post-loop code, run for
at most `fuel` iterations.  `ex k` is `btns[3].read()` at the `k`-th
loop test; `inp k index` is `btns[index].read()` during the `k`-th
iteration; `bound` says whether the name `current` is already bound
(false at the initial call, true once any iteration has run).  Returns
the trace of published messages and the outcome: on exit with `current`
bound, `print(current)` succeeds and the three offline messages are
published; on exit with `current` unbound, `print(current)` raises
`NameError` and nothing more is published. -/
def pollLoop : Nat → (Nat → Nat) → (Nat → Nat → Nat) → List Nat → Bool → List Msg × PollResult
  | 0, _, _, _, _ => ([], PollResult.running)
  | fuel + 1, ex, inp, last, bound =>
    if ex 0 = 0 then
      ((pollIter (inp 0) last).1 ++
          (pollLoop fuel (fun k => ex (k + 1)) (fun k => inp (k + 1))
            (pollIter (inp 0) last).2 true).1,
        (pollLoop fuel (fun k => ex (k + 1)) (fun k => inp (k + 1))
          (pollIter (inp 0) last).2 true).2)
    else if bound then
      (offlinePublishes, PollResult.exited last)
    else
      ([], PollResult.nameError)

/-- The trace of change messages of the first `n` iterations alone (no
exit check, no offline messages), with the resulting `last`. -/
def changeTrace : Nat → (Nat → Nat → Nat) → List Nat → List Msg × List Nat
  | 0, _, last => ([], last)
  | n + 1, inp, last =>
    ((pollIter (inp 0) last).1 ++
        (changeTrace n (fun k => inp (k + 1)) (pollIter (inp 0) last).2).1,
      (changeTrace n (fun k => inp (k + 1)) (pollIter (inp 0) last).2).2)

/- ## Topic wildcard matching -/

/-- Modelled from the spec: MQTT topic-wildcard matching is implemented
by the external `paho` client library / broker, not by code in this
repository.  The spec says a topic is a hierarchical routing key and "a
wildcard segment matches any value at that position"; the notebook notes
that the `#` in `button/#` "matches button/0 and button/1 for example".
Split a topic into its `/`-separated levels. -/
def splitLevels : List Char → List (List Char)
  | [] => [[]]
  | c :: cs =>
    let rest := splitLevels cs
    if c = '/' then [] :: rest
    else
      match rest with
      | [] => [[c]]
      | r :: rs => (c :: r) :: rs

/-- Modelled from the spec: match a pattern's levels against a topic's
levels; the `#` wildcard level matches all remaining levels, and a `+`
wildcard level matches any single level. -/
def matchLevels : List (List Char) → List (List Char) → Bool
  | [], [] => true
  | p :: ps, ts =>
    if p = ['#'] then true
    else
      match ts with
      | [] => false
      | t :: ts' => (p = ['+'] || p = t) && matchLevels ps ts'
  | [], _ :: _ => false

/-- Modelled from the spec: whether subscription pattern `pat` matches
topic `t` under the wildcard semantics described in the spec. -/
def topicMatches (pat t : String) : Bool :=
  matchLevels (splitLevels pat.data) (splitLevels t.data)

/- ## Cell 8: the publish timing benchmark

```python
num_records = 100
time_records = [0 for _ in range(num_records)]
total_time = 0
for i in range(num_records):
    start_time = timeit.default_timer()
    client.publish("foo", "bar")
    elapsed = timeit.default_timer() - start_time
    time_records[i] = elapsed
    total_time += elapsed
print("Average speed: " + str(num_records/total_time)+" packets/second.")
```

Timer readings are external: `e i` is the `elapsed` value measured in
iteration `i`.  Elapsed times are modelled as rationals. -/

/-- The constant `num_records = 100`. -/
def num_records : Nat := 100

/-- The benchmark loop's state: the publish calls made so far, the
`time_records` list and the `total_time` accumulator. -/
structure BenchState where
  published : List Msg
  time_records : List ℚ
  total_time : ℚ

/-- One benchmark iteration: `client.publish("foo", "bar")`,
`time_records[i] = elapsed`, `total_time += elapsed`. -/
def benchStep (e : Nat → ℚ) (st : BenchState) (i : Nat) : BenchState :=
  { published := st.published ++ [{ topic := "foo", payload := "bar" }]
    time_records := st.time_records.set i (e i)
    total_time := st.total_time + e i }

/-- The state before the loop: `time_records = [0 for _ in range(num_records)]`,
`total_time = 0`. -/
def benchInit : BenchState :=
  { published := [], time_records := List.replicate num_records 0, total_time := 0 }

/-- The loop `for i in range(num_records): ...`: the whole benchmark loop. -/
def benchmark (e : Nat → ℚ) : BenchState :=
  (List.range num_records).foldl (benchStep e) benchInit

/-- The reported average speed `num_records/total_time`.  Python's
division raises `ZeroDivisionError` when `total_time` is zero; the error
branch is modelled as `none`. -/
def average_speed (e : Nat → ℚ) : Option ℚ :=
  if (benchmark e).total_time = 0 then none
  else some ((num_records : ℚ) / (benchmark e).total_time)

/- # Theorems -/

/-- Claim C5: exactly the on-connect, on-subscribe and on-message callbacks
are registered on the client; the defined `on_publish` handler is never
attached. -/
theorem c5_three_callbacks_registered :
    clientAfterCell5.on_connect = some Handler.on_connect ∧
    clientAfterCell5.on_subscribe = some Handler.on_subscribe ∧
    clientAfterCell5.on_message = some Handler.on_message ∧
    clientAfterCell5.on_publish = none :=
  ⟨rfl, rfl, rfl, rfl⟩

/-- Claim C3: each acknowledgment busy-wait (after connect and after
subscribe) issues exactly ten `client.loop` calls, each with timeout
0.1 s, regardless of whether the acknowledgment has arrived. -/
theorem c3_busy_wait_fixed_count (arrived : Nat → Bool) :
    connectAckWait arrived = List.replicate 10 loopTimeout ∧
    subscribeAckWait arrived = List.replicate 10 loopTimeout ∧
    (connectAckWait arrived).length = 10 ∧
    (subscribeAckWait arrived).length = 10 :=
  ⟨rfl, rfl, rfl, rfl⟩

theorem toggleLoop_length (leds : List Bool) :
    (toggleLoop leds).length = leds.length := by
  induction leds with
  | nil => rfl
  | cons led rest ih => simp [toggleLoop, ih]

theorem toggleLoop_getD (leds : List Bool) (i : Nat) (h : i < leds.length) :
    (toggleLoop leds).getD i false = !(leds.getD i false) := by
  induction leds generalizing i with
  | nil => simp at h
  | cons led rest ih =>
    cases i with
    | zero => rfl
    | succ j =>
      simp only [toggleLoop, List.getD_cons_succ]
      exact ih j (by simpa using h)

/-- Claim C6: the `on_message` callback toggles every LED exactly once per
delivered message, independently of the message's topic, payload and
QoS. -/
theorem c6_on_message_toggles_all_leds (m₁ m₂ : PahoMessage) (leds : List Bool)
    (i : Nat) (h : i < leds.length) :
    onMessageLeds m₁ leds = onMessageLeds m₂ leds ∧
    (onMessageLeds m₁ leds).length = leds.length ∧
    (onMessageLeds m₁ leds).getD i false = !(leds.getD i false) :=
  ⟨rfl, toggleLoop_length leds, toggleLoop_getD leds i h⟩

theorem c6_on_message_toggles_all_leds_witness :
    0 < ([true, false] : List Bool).length ∧
    (onMessageLeds ⟨"button/0", "1", 0⟩ [true, false] =
        onMessageLeds ⟨"foo", "bar", 1⟩ [true, false] ∧
      (onMessageLeds ⟨"button/0", "1", 0⟩ [true, false]).length =
        ([true, false] : List Bool).length ∧
      (onMessageLeds ⟨"button/0", "1", 0⟩ [true, false]).getD 0 false =
        !(([true, false] : List Bool).getD 0 false)) :=
  ⟨by decide,
    c6_on_message_toggles_all_leds ⟨"button/0", "1", 0⟩ ⟨"foo", "bar", 1⟩
      [true, false] 0 (by decide)⟩

/-- Claim C1: in any polling iteration, for each monitored index `i < 3`, the
iteration publishes exactly one message on topic `button/<i>`, with the
string form of the freshly sampled value as payload, when that value
differs from the previously recorded one — and publishes nothing on that
topic otherwise. -/
theorem c1_one_publish_per_changed_input (read : Nat → Nat) (last : List Nat)
    (i : Nat) (h : i < 3) :
    (iterationPublishes (currentOf read) last).filter
        (fun m => m.topic == "button/" ++ toString i) =
      if (currentOf read).getD i 0 ≠ last.getD i 0 then
        [{ topic := "button/" ++ toString i,
           payload := toString ((currentOf read).getD i 0) }]
      else [] := by
  have h3 : List.range 3 = [0, 1, 2] := rfl
  simp only [iterationPublishes, changedOf, currentOf, h3, List.map_cons, List.map_nil,
    List.filterMap_cons, List.filterMap_nil, List.getD_cons_zero, List.getD_cons_succ]
  interval_cases i <;> split_ifs <;>
    simp_all +decide [List.filter_cons, List.filter_nil]

theorem c1_one_publish_per_changed_input_witness :
    (0 : Nat) < 3 ∧
    (iterationPublishes (currentOf (fun j => j + 1)) [0, 0, 0]).filter
        (fun m => m.topic == "button/" ++ toString 0) =
      (if (currentOf (fun j => j + 1)).getD 0 0 ≠ ([0, 0, 0] : List Nat).getD 0 0 then
        [{ topic := "button/" ++ toString 0,
           payload := toString ((currentOf (fun j => j + 1)).getD 0 0) }]
      else []) :=
  ⟨by decide, c1_one_publish_per_changed_input (fun j => j + 1) [0, 0, 0] 0 (by decide)⟩

theorem mem_iterationPublishes_topic (c l : List Nat) (m : Msg)
    (hm : m ∈ iterationPublishes c l) :
    m.topic = "button/0" ∨ m.topic = "button/1" ∨ m.topic = "button/2" := by
  simp only [iterationPublishes, List.mem_filterMap, List.mem_range] at hm
  obtain ⟨index, hidx, hf⟩ := hm
  by_cases hc : (changedOf c l).getD index false
  · rw [if_pos hc] at hf
    have hmv := (Option.some.inj hf).symm
    interval_cases index <;> simp [hmv] <;> decide
  · rw [if_neg hc] at hf
    simp at hf

theorem mem_offlinePublishes_topic (m : Msg) (hm : m ∈ offlinePublishes) :
    m.topic = "button/0" ∨ m.topic = "button/1" ∨ m.topic = "button/2" := by
  have h : offlinePublishes = [{ topic := "button/0", payload := "offline" },
      { topic := "button/1", payload := "offline" },
      { topic := "button/2", payload := "offline" }] := rfl
  rw [h] at hm
  have h2 : m = { topic := "button/0", payload := "offline" } ∨
      m = { topic := "button/1", payload := "offline" } ∨
      m = { topic := "button/2", payload := "offline" } := by simpa using hm
  rcases h2 with h1 | h1 | h1 <;> simp [h1]

theorem mem_pollLoop_topic (fuel : Nat) (ex : Nat → Nat) (inp : Nat → Nat → Nat)
    (last : List Nat) (bound : Bool) (m : Msg)
    (hm : m ∈ (pollLoop fuel ex inp last bound).1) :
    m.topic = "button/0" ∨ m.topic = "button/1" ∨ m.topic = "button/2" := by
  induction fuel generalizing ex inp last bound with
  | zero => simp [pollLoop] at hm
  | succ n ih =>
    by_cases hex : ex 0 = 0
    · rw [show pollLoop (n + 1) ex inp last bound =
          ((pollIter (inp 0) last).1 ++
              (pollLoop n (fun k => ex (k + 1)) (fun k => inp (k + 1))
                (pollIter (inp 0) last).2 true).1,
            (pollLoop n (fun k => ex (k + 1)) (fun k => inp (k + 1))
              (pollIter (inp 0) last).2 true).2)
          from by simp [pollLoop, hex]] at hm
      rcases List.mem_append.1 hm with h1 | h1
      · exact mem_iterationPublishes_topic _ _ _ h1
      · exact ih _ _ _ _ h1
    · cases bound with
      | true =>
        rw [show pollLoop (n + 1) ex inp last true =
              (offlinePublishes, PollResult.exited last)
            from by simp [pollLoop, hex]] at hm
        exact mem_offlinePublishes_topic _ hm
      | false =>
        rw [show pollLoop (n + 1) ex inp last false = ([], PollResult.nameError)
            from by simp [pollLoop, hex]] at hm
        simp at hm

theorem pollLoop_exit_bound_true (n : Nat) (ex : Nat → Nat) (inp : Nat → Nat → Nat)
    (last : List Nat) (h0 : ∀ k < n, ex k = 0) (h1 : ex n ≠ 0) :
    pollLoop (n + 1) ex inp last true =
      ((changeTrace n inp last).1 ++ offlinePublishes,
        PollResult.exited (changeTrace n inp last).2) := by
  induction n generalizing ex inp last with
  | zero =>
    simp [pollLoop, changeTrace, h1]
  | succ n ih =>
    have hex : ex 0 = 0 := h0 0 (Nat.succ_pos n)
    have h0' : ∀ k < n, ex (k + 1) = 0 := fun k hk => h0 (k + 1) (by omega)
    have hrec := ih (fun k => ex (k + 1)) (fun k => inp (k + 1)) (pollIter (inp 0) last).2 h0' h1
    rw [pollLoop, if_pos hex, hrec, changeTrace]
    simp [List.append_assoc]

theorem pollLoop_all_zero (f : Nat) (ex : Nat → Nat) (inp : Nat → Nat → Nat)
    (last : List Nat) (bound : Bool) (h0 : ∀ k < f, ex k = 0) :
    (pollLoop f ex inp last bound).2 = PollResult.running := by
  induction f generalizing ex inp last bound with
  | zero => rfl
  | succ n ih =>
    have hex : ex 0 = 0 := h0 0 (Nat.succ_pos n)
    simp [pollLoop, hex, ih _ _ _ _ (fun k hk => h0 (k + 1) (by omega))]

/-- Claim C2 as stated is false on the code: when `btns[3].read()` is
already non-zero at the first loop test, the loop exits at once having
run zero iterations, `print(current)` raises `NameError` (the name
`current` was never bound), and no `offline` message is published —
here concretely, the trace is empty rather than holding the three
offline messages. -/
theorem c2_counterexample_immediate_exit :
    pollLoop 1 (fun _ => 1) (fun _ _ => 0) [0, 0, 0] false =
      ([], PollResult.nameError) := by
  decide

/-- Claim C2, amended: when `btns[3].read()` returns 0 at the first `n`
loop tests and non-zero at test `n`, the loop runs exactly the `n`
change-publishing iterations and exits; if at least one iteration ran
(`n > 0`), exactly the three final `offline` messages on `button/0`,
`button/1`, `button/2` are then published; if the loop exits before any
iteration (`n = 0`), `print(current)` raises `NameError` and no
`offline` message is published; while every test has read 0 the loop is
still running. -/
theorem c2_exit_on_button3 (n : Nat) (ex : Nat → Nat) (inp : Nat → Nat → Nat)
    (last : List Nat) (h0 : ∀ k < n, ex k = 0) (h1 : ex n ≠ 0) :
    (0 < n →
      pollLoop (n + 1) ex inp last false =
        ((changeTrace n inp last).1 ++ offlinePublishes,
          PollResult.exited (changeTrace n inp last).2)) ∧
    (n = 0 →
      pollLoop (n + 1) ex inp last false = ([], PollResult.nameError)) ∧
    ∀ f ≤ n, (pollLoop f ex inp last false).2 = PollResult.running := by
  refine ⟨?_, ?_,
    fun f hf => pollLoop_all_zero f ex inp last false
      (fun k hk => h0 k (lt_of_lt_of_le hk hf))⟩
  · intro hn
    obtain ⟨m, rfl⟩ : ∃ m, n = m + 1 := ⟨n - 1, by omega⟩
    have hex : ex 0 = 0 := h0 0 hn
    have h0' : ∀ k < m, ex (k + 1) = 0 := fun k hk => h0 (k + 1) (by omega)
    have hrec := pollLoop_exit_bound_true m (fun k => ex (k + 1)) (fun k => inp (k + 1))
      (pollIter (inp 0) last).2 h0' h1
    rw [pollLoop, if_pos hex, hrec, changeTrace]
    simp [List.append_assoc]
  · intro hn
    subst hn
    simp [pollLoop, h1]

theorem c2_exit_on_button3_witness :
    ((0 : Nat) < 1 →
      pollLoop 2 (fun k => k) (fun k _ => k) [0, 0, 0] false =
        ((changeTrace 1 (fun k _ => k) [0, 0, 0]).1 ++ offlinePublishes,
          PollResult.exited (changeTrace 1 (fun k _ => k) [0, 0, 0]).2)) ∧
    ((1 : Nat) = 0 →
      pollLoop 2 (fun k => k) (fun k _ => k) [0, 0, 0] false =
        ([], PollResult.nameError)) ∧
    ∀ f ≤ 1, (pollLoop f (fun k => k) (fun k _ => k) [0, 0, 0] false).2 =
      PollResult.running :=
  c2_exit_on_button3 1 (fun k => k) (fun k _ => k) [0, 0, 0] (by decide) (by decide)

/-- Claim C10: no message about the exit input is ever published: every
message in the polling loop's trace (change messages of every iteration
and the final offline messages alike) has a topic other than
`button/3`. -/
theorem c10_no_button3_publish (fuel : Nat) (ex : Nat → Nat) (inp : Nat → Nat → Nat)
    (last : List Nat) (bound : Bool) (m : Msg)
    (hm : m ∈ (pollLoop fuel ex inp last bound).1) :
    m.topic ≠ "button/3" := by
  rcases mem_pollLoop_topic fuel ex inp last bound m hm with h | h | h <;> rw [h] <;> decide

theorem c10_no_button3_publish_witness :
    ({ topic := "button/1", payload := "offline" } : Msg) ∈
      (pollLoop 1 (fun _ => 2) (fun _ _ => 0) [1, 2, 3] true).1 ∧
    ({ topic := "button/1", payload := "offline" } : Msg).topic ≠ "button/3" :=
  ⟨by decide,
    c10_no_button3_publish 1 (fun _ => 2) (fun _ _ => 0) [1, 2, 3] true
      { topic := "button/1", payload := "offline" } (by decide)⟩

/-- Claim C4: the subscribed wildcard pattern `button/#` matches the topic of
every message the polling loop publishes — the change messages on
`button/0`, `button/1`, `button/2` and the final `offline` messages. -/
theorem c4_wildcard_matches_all_published (fuel : Nat) (ex : Nat → Nat)
    (inp : Nat → Nat → Nat) (last : List Nat) (bound : Bool) (m : Msg)
    (hm : m ∈ (pollLoop fuel ex inp last bound).1) :
    topicMatches "button/#" m.topic = true := by
  rcases mem_pollLoop_topic fuel ex inp last bound m hm with h | h | h <;> rw [h] <;> decide

theorem c4_wildcard_matches_all_published_witness :
    ({ topic := "button/0", payload := "offline" } : Msg) ∈
      (pollLoop 1 (fun _ => 1) (fun _ _ => 0) [] true).1 ∧
    topicMatches "button/#" ({ topic := "button/0", payload := "offline" } : Msg).topic = true :=
  ⟨by decide,
    c4_wildcard_matches_all_published 1 (fun _ => 1) (fun _ _ => 0) [] true
      { topic := "button/0", payload := "offline" } (by decide)⟩

theorem pollLoop_last_length (fuel : Nat) (ex : Nat → Nat) (inp : Nat → Nat → Nat)
    (last : List Nat) (bound : Bool) (h : last.length = 3) (lst : List Nat)
    (hy : (pollLoop fuel ex inp last bound).2 = PollResult.exited lst) :
    lst.length = 3 := by
  induction fuel generalizing ex inp last bound with
  | zero => simp [pollLoop] at hy
  | succ n ih =>
    by_cases hex : ex 0 = 0
    · rw [show (pollLoop (n + 1) ex inp last bound).2 =
          (pollLoop n (fun k => ex (k + 1)) (fun k => inp (k + 1))
            (pollIter (inp 0) last).2 true).2
          from by simp [pollLoop, hex]] at hy
      exact ih _ _ _ _ (by simp [pollIter, currentOf]) hy
    · cases bound with
      | true =>
        rw [show (pollLoop (n + 1) ex inp last true).2 = PollResult.exited last
            from by simp [pollLoop, hex]] at hy
        have h2 : last = lst := by injection hy
        rw [← h2]
        exact h
      | false =>
        rw [show (pollLoop (n + 1) ex inp last false).2 = PollResult.nameError
            from by simp [pollLoop, hex]] at hy
        simp at hy

/-- Claim C8: the `last` array always has length 3 (one entry per monitored
input): a fresh sample has length 3, each iteration replaces `last` by
exactly the values sampled in that iteration, and any `last` value the
loop can exit with still has length 3. -/
theorem c8_last_array_invariant (read : Nat → Nat) (last : List Nat)
    (h : last.length = 3) (fuel : Nat) (ex : Nat → Nat) (inp : Nat → Nat → Nat)
    (bound : Bool) (lst : List Nat)
    (hy : (pollLoop fuel ex inp last bound).2 = PollResult.exited lst) :
    (currentOf read).length = 3 ∧
    (pollIter read last).2 = currentOf read ∧
    (∀ i, i < 3 → ((pollIter read last).2).getD i 0 = read i) ∧
    lst.length = 3 := by
  refine ⟨rfl, rfl, ?_, pollLoop_last_length fuel ex inp last bound h lst hy⟩
  intro i hi
  interval_cases i <;> rfl

theorem c8_last_array_invariant_witness :
    (([0, 0, 0] : List Nat).length = 3 ∧
      (pollLoop 2 (fun k => k) (fun _ _ => 0) [0, 0, 0] false).2 =
        PollResult.exited [0, 0, 0]) ∧
    ((currentOf (fun j => j)).length = 3 ∧
      (pollIter (fun j => j) [0, 0, 0]).2 = currentOf (fun j => j) ∧
      (∀ i, i < 3 → ((pollIter (fun j => j) [0, 0, 0]).2).getD i 0 = i) ∧
      ([0, 0, 0] : List Nat).length = 3) :=
  ⟨⟨by decide, by decide⟩,
    c8_last_array_invariant (fun j => j) [0, 0, 0] (by decide) 2 (fun k => k)
      (fun _ _ => 0) false [0, 0, 0] (by decide)⟩

theorem bench_foldl_published (e : Nat → ℚ) (l : List Nat) (st : BenchState) :
    (l.foldl (benchStep e) st).published.length = st.published.length + l.length := by
  induction l generalizing st with
  | nil => simp
  | cons j js ih =>
    simp [List.foldl_cons, ih, benchStep]
    omega

theorem bench_foldl_records_length (e : Nat → ℚ) (l : List Nat) (st : BenchState) :
    (l.foldl (benchStep e) st).time_records.length = st.time_records.length := by
  induction l generalizing st with
  | nil => rfl
  | cons j js ih => simp [List.foldl_cons, ih, benchStep]

theorem bench_foldl_total (e : Nat → ℚ) (l : List Nat) (st : BenchState) :
    (l.foldl (benchStep e) st).total_time = st.total_time + (l.map e).sum := by
  induction l generalizing st with
  | nil => simp
  | cons j js ih =>
    simp [List.foldl_cons, ih, benchStep]
    ring

theorem bench_foldl_records_notmem (e : Nat → ℚ) (l : List Nat) (st : BenchState)
    (i : Nat) (hi : i ∉ l) :
    (l.foldl (benchStep e) st).time_records.getD i 0 = st.time_records.getD i 0 := by
  induction l generalizing st with
  | nil => rfl
  | cons j js ih =>
    have hij : i ≠ j := fun h => hi (h ▸ List.mem_cons_self j js)
    have hjs : i ∉ js := fun h => hi (List.mem_cons_of_mem j h)
    rw [List.foldl_cons, ih _ hjs]
    simp [benchStep, List.getD, List.getElem?_set_ne (Ne.symm hij)]

theorem bench_foldl_records_mem (e : Nat → ℚ) (l : List Nat) (st : BenchState)
    (i : Nat) (hl : l.Nodup) (hi : i ∈ l) (hlen : i < st.time_records.length) :
    (l.foldl (benchStep e) st).time_records.getD i 0 = e i := by
  induction l generalizing st with
  | nil => simp at hi
  | cons j js ih =>
    rcases List.mem_cons.1 hi with h | h
    · subst h
      have hnotin : i ∉ js := (List.nodup_cons.1 hl).1
      rw [List.foldl_cons, bench_foldl_records_notmem _ _ _ _ hnotin]
      simp [benchStep, List.getD, List.getElem?_set_self, hlen]
    · rw [List.foldl_cons]
      exact ih _ (List.nodup_cons.1 hl).2 h (by simpa [benchStep] using hlen)

theorem sum_map_range (f : Nat → ℚ) (n : Nat) :
    ((List.range n).map f).sum = ∑ i in Finset.range n, f i := by
  induction n with
  | zero => simp
  | succ m ih => simp [List.range_succ, Finset.sum_range_succ, ih]

theorem benchmark_records (e : Nat → ℚ) :
    (benchmark e).time_records = (List.range num_records).map e := by
  apply List.ext_getElem
  · rw [show (benchmark e).time_records.length = benchInit.time_records.length from
      bench_foldl_records_length e (List.range num_records) benchInit]
    simp [benchInit]
  · intro i h₁ h₂
    have hlen : (benchmark e).time_records.length = num_records := by
      rw [show (benchmark e).time_records.length = benchInit.time_records.length from
        bench_foldl_records_length e (List.range num_records) benchInit]
      simp [benchInit]
    have hi : i < num_records := by rw [hlen] at h₁; exact h₁
    have hmem : (benchmark e).time_records.getD i 0 = e i :=
      bench_foldl_records_mem e (List.range num_records) benchInit i
        (List.nodup_range num_records) (List.mem_range.2 hi) (by simp [benchInit, hi])
    rw [List.getD_eq_getElem _ _ h₁] at hmem
    simp only [List.getElem_map, List.getElem_range]
    exact hmem

theorem benchmark_total (e : Nat → ℚ) :
    (benchmark e).total_time = ((List.range num_records).map e).sum := by
  have h := bench_foldl_total e (List.range num_records) benchInit
  simpa [benchInit] using h

/-- Claim C7: the benchmark performs exactly 100 publish calls, records one
elapsed-time sample per call in the 100-element `time_records` list, the
accumulated `total_time` equals the sum of those samples, and (when the
division is defined) the reported average speed is `num_records`
divided by `total_time`. -/
theorem c7_benchmark_accounting (e : Nat → ℚ)
    (ht : (benchmark e).total_time ≠ 0) :
    (benchmark e).published.length = num_records ∧
    (benchmark e).time_records.length = num_records ∧
    (benchmark e).time_records = (List.range num_records).map e ∧
    (benchmark e).total_time = (benchmark e).time_records.sum ∧
    average_speed e = some ((num_records : ℚ) / (benchmark e).total_time) := by
  refine ⟨?_, ?_, benchmark_records e, ?_, ?_⟩
  · have h := bench_foldl_published e (List.range num_records) benchInit
    simpa [benchInit] using h
  · rw [benchmark_records e]
    simp
  · rw [benchmark_records e, benchmark_total e]
  · simp [average_speed, ht]

theorem c7_benchmark_accounting_witness :
    (benchmark (fun _ => (1 : ℚ))).total_time ≠ 0 ∧
    ((benchmark (fun _ => (1 : ℚ))).published.length = num_records ∧
      (benchmark (fun _ => (1 : ℚ))).time_records.length = num_records ∧
      (benchmark (fun _ => (1 : ℚ))).time_records =
        (List.range num_records).map (fun _ => (1 : ℚ)) ∧
      (benchmark (fun _ => (1 : ℚ))).total_time =
        (benchmark (fun _ => (1 : ℚ))).time_records.sum ∧
      average_speed (fun _ => (1 : ℚ)) =
        some ((num_records : ℚ) / (benchmark (fun _ => (1 : ℚ))).total_time)) := by
  have ht : (benchmark (fun _ => (1 : ℚ))).total_time ≠ 0 := by
    rw [benchmark_total]
    rw [show (List.range num_records).map (fun _ => (1 : ℚ)) =
        List.replicate num_records 1 from by simp [List.map_const']]
    rw [List.sum_replicate]
    norm_num [num_records]
  exact ⟨ht, c7_benchmark_accounting (fun _ => (1 : ℚ)) ht⟩

/-- Claim C9: the average-speed division is guarded by no code: with
non-negative elapsed-time samples, if every sample is zero the division
hits its error branch (`none`, modelling Python's `ZeroDivisionError`),
and if at least one sample is strictly positive the division is defined
and produces `num_records / total_time`. -/
theorem c9_division_needs_positive_sample (e : Nat → ℚ)
    (hnn : ∀ i, i < num_records → 0 ≤ e i) :
    ((∀ i, i < num_records → e i = 0) → average_speed e = none) ∧
    ((∃ i, i < num_records ∧ 0 < e i) →
      average_speed e = some ((num_records : ℚ) / (benchmark e).total_time)) := by
  constructor
  · intro hz
    have h0 : (benchmark e).total_time = 0 := by
      rw [benchmark_total]
      apply List.sum_eq_zero
      intro x hx
      obtain ⟨i, hi, hxi⟩ := List.mem_map.1 hx
      rw [← hxi]
      exact hz i (List.mem_range.1 hi)
    simp [average_speed, h0]
  · rintro ⟨i, hi, hpos⟩
    have hgt : 0 < (benchmark e).total_time := by
      rw [benchmark_total, sum_map_range]
      exact Finset.sum_pos' (fun j hj => hnn j (Finset.mem_range.1 hj))
        ⟨i, Finset.mem_range.2 hi, hpos⟩
    simp [average_speed, ne_of_gt hgt]

theorem c9_division_needs_positive_sample_witness :
    (∀ i, i < num_records → (0 : ℚ) ≤ 0) ∧
    ((∀ i, i < num_records → (0 : ℚ) = 0) →
      average_speed (fun _ => (0 : ℚ)) = none) ∧
    ((∃ i, i < num_records ∧ (0 : ℚ) < 0) →
      average_speed (fun _ => (0 : ℚ)) =
        some ((num_records : ℚ) / (benchmark (fun _ => (0 : ℚ))).total_time)) :=
  ⟨fun i _ => le_refl 0,
    c9_division_needs_positive_sample (fun _ => (0 : ℚ)) (fun i _ => le_refl 0)⟩
